import Mathlib

/-
Verification development for the OneTV native extraction and scripting core
(`film/src/main/cpp/spider-bridge.cpp` and `film/src/main/cpp/quickjs-android.cpp`).

Strings are modelled as `List Char` (`Str`).  Each `std::regex` pattern of the
source is embedded as an executable matcher that follows ECMAScript
leftmost/greedy-with-backtracking semantics for the specific pattern shape; the
correspondence is documented next to each matcher.  The character class `\s`
is modelled by its ASCII members (the inputs of interest are HTML text).

The `std::sregex_iterator` loops of the source are modelled by `scanAll`
(successive non-overlapping leftmost matches) and single `std::regex_search`
calls by `searchFirst` (first leftmost match).  Both use a fuel argument equal
to the input length plus one; every matcher consumes at least one character on
success, so the fuel is never exhausted before the scan finishes.
-/

namespace OneTV

/-- Strings of the modelled C++ code, as lists of characters. -/
abbrev Str := List Char

namespace Spider

/-- The character class `["']` (double or single quote). -/
def quoteCh (c : Char) : Bool := c = '\x22' || c = '\x27'

/-- ASCII members of the ECMAScript class `\s`. -/
def ecmaWs (c : Char) : Bool :=
  c = ' ' || c = '\t' || c = '\n' || c = '\r' || c = '\x0b' || c = '\x0c'

/-- The class `[^"'\s]` excludes exactly these characters. -/
def urlStop (c : Char) : Bool := quoteCh c || ecmaWs c

/-- The class `["\s]` (double quote or whitespace; note: no single quote). -/
def sepCh (c : Char) : Bool := c = '\x22' || ecmaWs c

/-- The class `[^"',\s]` excludes exactly these characters. -/
def metaStop (c : Char) : Bool := quoteCh c || c = ',' || ecmaWs c

/-- The whitespace set `" \t\r\n"` used by `SimpleSpiderEngine::trim`. -/
def cppTrimWs (c : Char) : Bool := c = ' ' || c = '\t' || c = '\r' || c = '\n'

/-- Lower-casing for the `icase` regex flag (the patterns are ASCII). -/
def lowerStr (s : Str) : Str := s.map Char.toLower

/-- Match a literal (case-sensitive); returns the remainder after it. -/
def lit (l s : Str) : Option Str :=
  if l.isPrefixOf s then some (s.drop l.length) else none

/-- Match a literal case-insensitively; returns the remainder after it. -/
def litI (l s : Str) : Option Str :=
  if lowerStr (s.take l.length) = lowerStr l then some (s.drop l.length) else none

/-- Model of `isSub e s`: `e` occurs as a contiguous substring of `s`
(`std::string::find(e) != npos`, and occurrence of a literal inside a
regex alternative). -/
def isSub (e : Str) : Str → Bool
  | [] => e.isPrefixOf []
  | c :: t => e.isPrefixOf (c :: t) || isSub e t

/-- Model of `std::string::find`: index of the first occurrence, `none` for `npos`. -/
def strfindAux (p : Str) : Str → Nat → Option Nat
  | [], i => if p.isPrefixOf [] then some i else none
  | c :: t, i => if p.isPrefixOf (c :: t) then some i else strfindAux p t (i + 1)

/-- Model of `s.find(p)` of `std::string`, as an `Option Nat`. -/
def strfind (s p : Str) : Option Nat := strfindAux p s 0

/-- After the literal `http`, the regex fragment `s?://` (greedy optional `s`
followed by the literal `://`).  Returns the full scheme text consumed so far
(`http://` or `https://`) together with the remainder. -/
def schemeTail (r : Str) : Option (Str × Str) :=
  if (("s://").data).isPrefixOf r then some ((("https://").data), r.drop 4)
  else if (("://").data).isPrefixOf r then some ((("http://").data), r.drop 3)
  else none

/-- One match attempt, at the head of the input, of the play-URL pattern
`(https?://[^"'\s]+\.EXT[^"'\s]*)` (no `icase` flag in the source).
With greedy backtracking the match, when it exists, spans from `http`
to the end of the maximal `[^"'\s]` run after `://`, and it exists iff the
literal `.EXT` (`ext` below includes the dot) occurs in that run at an index
at least 1 (the `+` needs one character before the literal).
Returns (capture, remainder after the match). -/
def matchBareUrl (ext s : Str) : Option (Str × Str) :=
  match lit (("http").data) s with
  | none => none
  | some r1 =>
    match schemeTail r1 with
    | none => none
    | some (sch, r2) =>
      let run := r2.takeWhile (fun c => !(urlStop c))
      if isSub ext (run.drop 1) then some (sch ++ run, r2.drop run.length)
      else none

/-- One match attempt of `https?://[^/]+` (the `domainRegex` of
`makeAbsoluteUrl`); the whole match is returned as the capture. -/
def matchDomain (s : Str) : Option (Str × Str) :=
  match lit (("http").data) s with
  | none => none
  | some r1 =>
    match schemeTail r1 with
    | none => none
    | some (sch, r2) =>
      let host := r2.takeWhile (fun c => c != '/')
      if host = [] then none else some (sch ++ host, r2.drop host.length)

/-- Model of `std::regex_search`: capture of the first (leftmost) match. -/
def searchFirst (m : Str → Option (Str × Str)) : Nat → Str → Option Str
  | 0, _ => none
  | _ + 1, [] => none
  | f + 1, c :: cs =>
    match m (c :: cs) with
    | some (cap, _) => some cap
    | none => searchFirst m f cs

/-- Model of `std::sregex_iterator`: captures of all successive leftmost
non-overlapping matches. -/
def scanAll (m : Str → Option (Str × Str)) : Nat → Str → List Str
  | 0, _ => []
  | _ + 1, [] => []
  | f + 1, c :: cs =>
    match m (c :: cs) with
    | some (cap, rest) => cap :: scanAll m f rest
    | none => scanAll m f cs

/-- First match of `domainRegex` inside `baseUrl` (`regex_search`). -/
def domainOf (baseUrl : Str) : Option Str :=
  searchFirst matchDomain (baseUrl.length + 1) baseUrl

/-- Model of `baseUrl.substr(0, lastSlash + 1)` when `find_last_of('/')` succeeds:
the prefix of the string up to and including its last `/`. -/
def takeThruLastSlash : Str → Option Str
  | [] => none
  | c :: cs =>
    match takeThruLastSlash cs with
    | some p => some (c :: p)
    | none => if c = '/' then some [c] else none

/-- Model of `SimpleSpiderEngine::makeAbsoluteUrl`.  Branches exactly as the source:
a `url.find("http") == 0` candidate is returned unchanged; `//` gets `https:`
prefixed; a root-relative candidate is resolved against the first
`https?://[^/]+` match of the base, falling through to the relative-path case
when that search fails; a relative candidate is appended to the base cut
after its last `/`; if the base has no `/`, the candidate is returned as-is. -/
def makeAbsoluteUrl (url baseUrl : Str) : Str :=
  if (("http").data).isPrefixOf url then url
  else if (("//").data).isPrefixOf url then ("https:").data ++ url
  else
    match (if (("/").data).isPrefixOf url then domainOf baseUrl else none) with
    | some d => d ++ url
    | none =>
      match takeThruLastSlash baseUrl with
      | some p => p ++ url
      | none => url

/-- Capture of `(["'])`-delimited text `([^"']+)`: the maximal nonempty run of
non-quote characters, with the remainder after it. -/
def capAt (cs : Str) : Option (Str × Str) :=
  let run := cs.takeWhile (fun c => !(quoteCh c))
  if run = [] then none else some (run, cs.drop run.length)

/-- Capture of `([^"']+\.EXT[^"']*)`: the maximal run of non-quote characters,
provided the literal `.EXT` occurs in it at index at least 1. -/
def capExtAt (ext cs : Str) : Option (Str × Str) :=
  let run := cs.takeWhile (fun c => !(quoteCh c))
  if isSub ext (run.drop 1) then some (run, cs.drop run.length) else none

/-- Case-insensitive occurrence check, for the `.EXT` literal of patterns
carrying the `icase` flag. -/
def isSubI (e s : Str) : Bool := isSub (lowerStr e) (lowerStr s)

/-- Capture of `([^"']+\.EXT[^"']*)` under `icase`: as `capExtAt` but the
`.EXT` literal matches case-insensitively. -/
def capExtAtI (ext cs : Str) : Option (Str × Str) :=
  let run := cs.takeWhile (fun c => !(quoteCh c))
  if isSubI ext (run.drop 1) then some (run, cs.drop run.length) else none

/-- The fragment `["\s]*["']` followed by a capture: the greedy separator run
backtracks so that one quote is left for the `["']` atom (a `"` inside the
separator run can serve as that quote; a `'` cannot belong to the separator
run and is taken directly).  Deeper (longer separator) alternatives are
preferred, exactly as the greedy `*` does. -/
def sepQuoteThen (cap : Str → Option (Str × Str)) : Str → Option (Str × Str)
  | [] => none
  | c :: cs =>
    if sepCh c then
      match sepQuoteThen cap cs with
      | some res => some res
      | none => if c = '\x22' then cap cs else none
    else if quoteCh c then cap cs
    else none

/-- Capture of `([^"',\s]+)` for the metadata patterns. -/
def metaCapAt (cs : Str) : Option (Str × Str) :=
  let run := cs.takeWhile (fun c => !(metaStop c))
  if run = [] then none else some (run, cs.drop run.length)

/-- The fragment `["\s]*["']?([^"',\s]+)` of the metadata patterns: like
`sepQuoteThen`, but the quote is optional; when the next character is not a
quote the capture starts right there.  A quote that is followed by no
capturable character cannot be re-read as capture text (quotes are excluded
from the capture class), faithfully to the regex backtracking. -/
def sepQuoteOptCap : Str → Option (Str × Str)
  | [] => none
  | c :: cs =>
    if sepCh c then
      match sepQuoteOptCap cs with
      | some res => some res
      | none => if c = '\x22' then metaCapAt cs else none
    else if quoteCh c then metaCapAt cs
    else metaCapAt (c :: cs)

/-- One match attempt of `PRE["']([^"']+\.EXT[^"']*)` at the head of the
input; `ci` selects the `icase` flag (`src=` patterns lack it, `href=`
patterns have it). -/
def matchAttrUrl (ci : Bool) (pre ext s : Str) : Option (Str × Str) :=
  match (if ci then litI pre s else lit pre s) with
  | none => none
  | some r1 =>
    match r1 with
    | [] => none
    | q :: r2 =>
      if quoteCh q then (if ci then capExtAtI ext r2 else capExtAt ext r2) else none

/-- One match attempt of `KEY["\s]*[:=]["\s]*["']([^"']+)`; `ci` selects the
`icase` flag.  The separator run before `[:=]` is deterministic because `:`
and `=` are not in `["\s]`. -/
def matchKeyValQuoted (ci : Bool) (key s : Str) : Option (Str × Str) :=
  match (if ci then litI key s else lit key s) with
  | none => none
  | some r1 =>
    match r1.dropWhile sepCh with
    | [] => none
    | c :: r3 => if c = ':' || c = '=' then sepQuoteThen capAt r3 else none

/-- One match attempt of `url["\s]*[:=]["\s]*["']([^"']+\.EXT[^"']*)`
(case-sensitive, as in the source). -/
def matchUrlKey (ext s : Str) : Option (Str × Str) :=
  match lit (("url").data) s with
  | none => none
  | some r1 =>
    match r1.dropWhile sepCh with
    | [] => none
    | c :: r3 => if c = ':' || c = '=' then sepQuoteThen (capExtAt ext) r3 else none

/-- One match attempt of `KEY["\s]*[:=]["\s]*["']?([^"',\s]+)` (`icase`),
the shape of the six metadata patterns. -/
def matchMetaKey (key s : Str) : Option (Str × Str) :=
  match litI key s with
  | none => none
  | some r1 =>
    match r1.dropWhile sepCh with
    | [] => none
    | c :: r3 => if c = ':' || c = '=' then sepQuoteOptCap r3 else none

/-- One match attempt of `<TAG[^>]*>([^<]+)</TAG>` (`icase`).  `[^>]*`
necessarily stops at the first `>`, and the capture `[^<]+` at the first `<`,
which must start the closing literal. -/
def matchTagPair (tag s : Str) : Option (Str × Str) :=
  match litI ('<' :: tag) s with
  | none => none
  | some r1 =>
    let mid := r1.takeWhile (fun c => c != '>')
    match r1.drop mid.length with
    | [] => none
    | _ :: r2 =>
      let cap := r2.takeWhile (fun c => c != '<')
      if cap = [] then none
      else
        match litI (('<' :: '/' :: tag) ++ [ '>' ]) (r2.drop cap.length) with
        | some rest => some (cap, rest)
        | none => none

/-- One match attempt of `KEY["']([^"']+)` (`icase`), the shape of the
`poster=` thumbnail pattern (the `=` is part of `key`). -/
def matchEqQuoted (key s : Str) : Option (Str × Str) :=
  match litI key s with
  | none => none
  | some r1 =>
    match r1 with
    | [] => none
    | q :: r2 => if quoteCh q then capAt r2 else none

/-- Model of `src=["']([^"']+)` tried with `[^>]+` having consumed `i` characters. -/
def imgSrcAt (r1 : Str) (i : Nat) : Option (Str × Str) :=
  match litI (("src=").data) (r1.drop i) with
  | none => none
  | some r2 =>
    match r2 with
    | [] => none
    | q :: r3 => if quoteCh q then capAt r3 else none

/-- Try candidate positions, preferring the last (greedy `[^>]+`). -/
def lastSome (f : Nat → Option (Str × Str)) : List Nat → Option (Str × Str)
  | [] => none
  | i :: is =>
    match lastSome f is with
    | some r => some r
    | none => f i

/-- One match attempt of `<img[^>]+src=["']([^"']+)` (`icase`).  The greedy
`[^>]+` consumes as much of the `>`-free run after `<img` as possible while
still leaving a `src=["']` with a nonempty capture, so the last such position
wins; the literal `src=` and the quote contain no `>` and therefore lie
inside that run whenever a match exists. -/
def matchImg (s : Str) : Option (Str × Str) :=
  match litI (("<img").data) s with
  | none => none
  | some r1 =>
    let gtRun := r1.takeWhile (fun c => c != '>')
    lastSome (imgSrcAt r1) (List.range' 1 gtRun.length)

/-- Model of `\.(jpg|jpeg|png|gif|bmp|webp)(\?|$)` alternatives after the dot. -/
def imageExts : List Str :=
  [("jpg").data, ("jpeg").data, ("png").data, ("gif").data, ("bmp").data, ("webp").data]

/-- Does some image extension followed by `?` or end-of-string start here? -/
def imageExtAt (r : Str) : Bool :=
  imageExts.any fun e =>
    match litI e r with
    | some rest =>
      match rest with
      | [] => true
      | c :: _ => c = '?'
    | none => false

/-- Model of `SimpleSpiderEngine::isImageUrl`: `regex_search` for
`\.(jpg|jpeg|png|gif|bmp|webp)(\?|$)` with `icase`. -/
def isImageUrl : Str → Bool
  | [] => false
  | c :: cs => (c = '.' && imageExtAt cs) || isImageUrl cs

/-- Model of `SimpleSpiderEngine::stripHtmlTags`: `regex_replace` of `<[^>]*>` by the
empty string.  Each match runs from a `<` to the first following `>`; if no
`>` remains, no further match is possible and the rest is kept verbatim. -/
def stripHtmlTagsAux : Nat → Str → Str
  | 0, s => s
  | _ + 1, [] => []
  | f + 1, c :: cs =>
    if c = '<' then
      match cs.dropWhile (fun x => x != '>') with
      | [] => c :: cs
      | _ :: rest => stripHtmlTagsAux f rest
    else c :: stripHtmlTagsAux f cs

/-- Model of `regex_replace(html, <[^>]*>, "")`. -/
def stripHtmlTags (s : Str) : Str := stripHtmlTagsAux (s.length + 1) s

/-- Model of `SimpleSpiderEngine::trim`: strip leading and trailing `" \t\r\n"`. -/
def trim (s : Str) : Str :=
  ((s.dropWhile cppTrimWs).reverse.dropWhile cppTrimWs).reverse

/-- Matches of one bare play-URL pattern `(https?://[^"'\s]+\.EXT[^"'\s]*)`
over the whole document. -/
def scanBareUrls (ext html : Str) : List Str :=
  scanAll (matchBareUrl ext) (html.length + 1) html

/-- Matches of one `src=["']([^"']+\.EXT[^"']*)` pattern over the document. -/
def scanSrcUrls (ext html : Str) : List Str :=
  scanAll (matchAttrUrl false (("src=").data) ext) (html.length + 1) html

/-- Matches of one `url["\s]*[:=]["\s]*["']([^"']+\.EXT[^"']*)` pattern. -/
def scanUrlKeyUrls (ext html : Str) : List Str :=
  scanAll (matchUrlKey ext) (html.length + 1) html

/-- The de-duplicating accumulation loop shared by the URL extractors:
push each value not already present (`std::find == end()`), preserving the
order of first occurrence. -/
def dedupAppend : List Str → List Str → List Str
  | acc, [] => acc
  | acc, u :: us => if u ∈ acc then dedupAppend acc us else dedupAppend (acc ++ [u]) us

/-- Model of `SimpleSpiderEngine::extractPlayUrls`: the nine patterns in declaration
order, one shared de-duplicated accumulator, captures used as-is (no URL
resolution). -/
def extractPlayUrls (html : Str) : List Str :=
  dedupAppend []
    (scanBareUrls ((".m3u8").data) html ++ scanBareUrls ((".mp4").data) html ++
     scanBareUrls ((".flv").data) html ++ scanBareUrls ((".avi").data) html ++
     scanBareUrls ((".mkv").data) html ++
     scanSrcUrls ((".m3u8").data) html ++ scanSrcUrls ((".mp4").data) html ++
     scanUrlKeyUrls ((".m3u8").data) html ++ scanUrlKeyUrls ((".mp4").data) html)

/-- The default title sentinel of `extractTitle` (Chinese "unknown title"). -/
def unknownTitle : Str := ("未知标题").data

/-- First-match results of the five title patterns, in declaration order. -/
def titleCandidates (html : Str) : List (Option Str) :=
  [searchFirst (matchTagPair (("title").data)) (html.length + 1) html,
   searchFirst (matchTagPair (("h1").data)) (html.length + 1) html,
   searchFirst (matchTagPair (("h2").data)) (html.length + 1) html,
   searchFirst (matchKeyValQuoted true (("title").data)) (html.length + 1) html,
   searchFirst (matchKeyValQuoted true (("name").data)) (html.length + 1) html]

/-- Length in UTF-8 bytes (`std::string::length()` counts bytes, not
characters). -/
def utf8Len (s : Str) : Nat := s.foldl (fun n c => n + c.utf8Size) 0

/-- The selection loop of `extractTitle`: first candidate whose stripped and
trimmed text is longer than 2 bytes wins; otherwise the sentinel
(`!title.empty() && title.length() > 2` is equivalent to `length > 2`). -/
def firstGoodTitle : List (Option Str) → Str
  | [] => unknownTitle
  | none :: rest => firstGoodTitle rest
  | some cand :: rest =>
    let t := trim (stripHtmlTags cand)
    if 2 < utf8Len t then t else firstGoodTitle rest

/-- Model of `SimpleSpiderEngine::extractTitle`. -/
def extractTitle (html : Str) : Str := firstGoodTitle (titleCandidates html)

/-- First-match results of the four thumbnail patterns, in order. -/
def thumbCandidates (html : Str) : List (Option Str) :=
  [searchFirst matchImg (html.length + 1) html,
   searchFirst (matchEqQuoted (("poster=").data)) (html.length + 1) html,
   searchFirst (matchKeyValQuoted true (("thumbnail").data)) (html.length + 1) html,
   searchFirst (matchKeyValQuoted true (("cover").data)) (html.length + 1) html]

/-- The selection loop of `extractThumbnail`: first candidate passing
`isImageUrl` is resolved and returned; otherwise the empty string. -/
def firstThumb (baseUrl : Str) : List (Option Str) → Str
  | [] => []
  | none :: rest => firstThumb baseUrl rest
  | some cand :: rest =>
    if isImageUrl cand then makeAbsoluteUrl cand baseUrl else firstThumb baseUrl rest

/-- Model of `SimpleSpiderEngine::extractThumbnail`. -/
def extractThumbnail (baseUrl html : Str) : Str := firstThumb baseUrl (thumbCandidates html)

/-- The six metadata keys, in declaration order. -/
def metaKeys : List Str :=
  [("duration").data, ("quality").data, ("format").data,
   ("size").data, ("bitrate").data, ("fps").data]

/-- Model of `SimpleSpiderEngine::extractMetadata`: one first-match probe per key;
each present key contributes one entry.  (The source stores the entries in a
`std::map` ordered by key; the entry set is what the claims use, and the
list below records the probe order.) -/
def extractMetadata (html : Str) : List (Str × Str) :=
  metaKeys.foldl (fun acc key =>
    match searchFirst (matchMetaKey key) (html.length + 1) html with
    | some v => acc ++ [(key, v)]
    | none => acc) []

/-- Matches of the global `download["\s]*[:=]["\s]*["']([^"']+)` pattern. -/
def scanDownloadKey (html : Str) : List Str :=
  scanAll (matchKeyValQuoted true (("download").data)) (html.length + 1) html

/-- Matches of one `href=["']([^"']+\.EXT[^"']*)` pattern (`icase`), reading
the pattern as the unterminated source text evidently intended it. -/
def scanHrefUrls (ext html : Str) : List Str :=
  scanAll (matchAttrUrl true (("href=").data) ext) (html.length + 1) html

/-- The accumulation loop of `extractDownloadUrls`, exactly as in the source:
the membership test compares the RAW capture `url` against the accumulator,
but the value pushed is `makeAbsoluteUrl(url)` — the two differ whenever
resolution changes the string, which defeats the de-duplication. -/
def extractDownloadUrlsLoop (baseUrl html : Str) : List Str :=
  (scanDownloadKey html ++ scanHrefUrls ((".mp4").data) html ++
   scanHrefUrls ((".avi").data) html ++ scanHrefUrls ((".mkv").data) html).foldl
    (fun acc u => if u ∈ acc then acc else acc ++ [makeAbsoluteUrl u baseUrl]) []

/-- ECMAScript group balance: an unmatched `(` outside a class and outside an
escape makes `std::regex` construction throw `regex_error` (`error_paren`). -/
def groupsBalancedAux : Str → Nat → Bool → Bool
  | [], d, _ => d = 0
  | c :: cs, d, inCl =>
    if c = '\x5c' then
      match cs with
      | [] => false
      | _ :: cs2 => groupsBalancedAux cs2 d inCl
    else if inCl then
      if c = ']' then groupsBalancedAux cs d false else groupsBalancedAux cs d inCl
    else if c = '[' then groupsBalancedAux cs d true
    else if c = '(' then groupsBalancedAux cs (d + 1) inCl
    else if c = ')' then
      match d with
      | 0 => false
      | d2 + 1 => groupsBalancedAux cs d2 inCl
    else groupsBalancedAux cs d inCl

/-- Whether a pattern's capture groups are balanced. -/
def groupsBalanced (p : Str) : Bool := groupsBalancedAux p 0 false

/-- The text of the first download pattern,
`download["\s]*[:=]["\s]*["']([^"']+)` (balanced). -/
def downloadPatternText : Str :=
  ("download[\x22\x5cs]*[:=][\x22\x5cs]*[\x22\x27]([^\x22\x27]+)").data

/-- The text of the `href=` download patterns exactly as the raw string
literal delimits it: `R"(href=["']([^"']+\.EXT[^"']*)"` ends at the first
`)"`, so the pattern text is `href=["']([^"']+\.EXT[^"']*` — the capture
group is never closed. -/
def hrefPatternText (extNoDot : Str) : Str :=
  ("href=[\x22\x27]([^\x22\x27]+\x5c.").data ++ extNoDot ++ ("[^\x22\x27]*").data

/-- Model of `SimpleSpiderEngine::extractDownloadUrls`: the pattern vector is built on
entry, and `std::regex` construction of an unbalanced pattern throws, so the
function only reaches its loop if all four pattern texts are valid. -/
def extractDownloadUrls (baseUrl html : Str) : Except Unit (List Str) :=
  if groupsBalanced downloadPatternText &&
     groupsBalanced (hrefPatternText (("mp4").data)) &&
     groupsBalanced (hrefPatternText (("avi").data)) &&
     groupsBalanced (hrefPatternText (("mkv").data))
  then Except.ok (extractDownloadUrlsLoop baseUrl html)
  else Except.error ()

/-- The result record built by `nativeParse` (`SpiderResult`); `parseTime` is
wall-clock time and is not modelled. -/
structure SpiderResult where
  url : Str
  title : Str
  content : Str
  thumbnail : Str
  metadata : List (Str × Str)
  playUrls : List Str
  downloadUrls : List Str
  error : Str
deriving DecidableEq

/-- Stand-in for the library-defined `what()` text of the `std::regex_error`
raised while constructing the `href=` patterns; only its non-emptiness
matters below. -/
def regexErrorWhat : Str := ("regex_error").data

/-- Model of `Java_..._SpiderManager_nativeParse`: the extractors run in order inside
a `try`; `extractDownloadUrls` throws, and the `catch` block discards all
fields computed so far, returning a default-constructed result with only
`url` and `error` set. -/
def parse (url html : Str) : SpiderResult :=
  match extractDownloadUrls url html with
  | Except.ok d =>
    { url := url, title := extractTitle html, content := html,
      thumbnail := extractThumbnail url html, metadata := extractMetadata html,
      playUrls := extractPlayUrls html, downloadUrls := d, error := [] }
  | Except.error _ =>
    { url := url, title := [], content := [], thumbnail := [], metadata := [],
      playUrls := [], downloadUrls := [], error := regexErrorWhat }

/-- The parse pipeline as the spec describes it and as the source evidently
intends it: identical to `parse` except that the unterminated capture group
of the `href=` patterns is repaired, so `extractDownloadUrls` reaches its
loop instead of throwing. -/
def parseRepaired (url html : Str) : SpiderResult :=
  { url := url, title := extractTitle html, content := html,
    thumbnail := extractThumbnail url html, metadata := extractMetadata html,
    playUrls := extractPlayUrls html, downloadUrls := extractDownloadUrlsLoop url html,
    error := [] }

/-- Model of `Java_..._SpiderManager_nativeExtractPlayUrls`: runs only the play-URL
extractor (its patterns are all valid) and returns the list. -/
def nativeExtractPlayUrls (url html : Str) : List Str := extractPlayUrls html

/-- Model of `Java_..._SpiderManager_nativeValidatePlayUrl`, written with
`std::string::find` exactly as the source:
`find("http") == 0` and some extension substring present. -/
def nativeValidatePlayUrl (url : Str) : Bool :=
  (strfind url (("http").data) == some 0) &&
  ((strfind url ((".m3u8").data)).isSome || (strfind url ((".mp4").data)).isSome ||
   (strfind url ((".flv").data)).isSome || (strfind url ((".avi").data)).isSome ||
   (strfind url ((".mkv").data)).isSome)

/-- No recognized pattern occurs in `html`: every title, thumbnail and
metadata probe fails and every URL scan is empty. -/
def recognizesNothing (html : Str) : Bool :=
  (titleCandidates html).all Option.isNone &&
  (thumbCandidates html).all Option.isNone &&
  (metaKeys.all fun k => (searchFirst (matchMetaKey k) (html.length + 1) html).isNone) &&
  (extractPlayUrls html).isEmpty &&
  (scanDownloadKey html).isEmpty &&
  (scanHrefUrls ((".mp4").data) html).isEmpty &&
  (scanHrefUrls ((".avi").data) html).isEmpty &&
  (scanHrefUrls ((".mkv").data) html).isEmpty


/-- An absolute URL in the sense of the spec's glossary: an explicit
`http://` or `https://` scheme. -/
def isAbsUrl (s : Str) : Bool :=
  (("http://").data).isPrefixOf s || (("https://").data).isPrefixOf s

/-- The spec's scenario input:
`<title>Demo</title><video src="https://cdn.test/v.m3u8"></video>`. -/
def demoHtml : Str :=
  ("<title>Demo</title><video src=\x22https://cdn.test/v.m3u8\x22></video>").data

end Spider

namespace QJS

/-- Model of `HttpRequest` of quickjs-android.cpp (default method GET, default
timeout 15000 ms); built per call by the bridge functions. -/
structure HttpRequest where
  url : Str
  method : Str
  data : Str
  headers : List (Str × Str)
  timeout : Int
deriving DecidableEq

/-- Model of `HttpResponse` of quickjs-android.cpp. -/
structure HttpResponse where
  data : Str
  responseCode : Int
  contentType : Str
  headers : List (Str × Str)
deriving DecidableEq

/-- Outcome of the external libcurl transport for one request: `initFail`
(curl_easy_init returned null), `failed` (curl_easy_perform returned a
non-OK code whose strerror text is the payload), or `succeeded` with the
protocol status code, body, content type and response headers. -/
inductive TransportOutcome where
  | initFail : TransportOutcome
  | failed : Str → TransportOutcome
  | succeeded : Int → Str → Str → List (Str × Str) → TransportOutcome
deriving DecidableEq

/-- Model of `performHttpRequest` (libcurl build): init failure and perform failure
set `responseCode = -1` and an `ERROR:`-prefixed message in `data`; a
completed transfer reports the protocol status and payload.  (Headers
already collected before a mid-transfer failure are not modelled.) -/
def performHttpRequest (req : HttpRequest) (t : TransportOutcome) : HttpResponse :=
  match t with
  | TransportOutcome.initFail =>
    { data := ("ERROR: Failed to initialize CURL").data, responseCode := -1,
      contentType := [], headers := [] }
  | TransportOutcome.failed msg =>
    { data := ("ERROR: ").data ++ msg, responseCode := -1,
      contentType := [], headers := [] }
  | TransportOutcome.succeeded code body ctype hs =>
    { data := body, responseCode := code, contentType := ctype, headers := hs }

/-- Model of `performHttpRequest` (no-libcurl stub build): always reports protocol
status 200 with `application/json` and an error JSON payload naming
`HTTP_NOT_SUPPORTED`, echoing the request's url and method. -/
def performHttpRequestStub (req : HttpRequest) : HttpResponse :=
  { data :=
      ("\x7b \x22error\x22: \x22HTTP_NOT_SUPPORTED\x22, \x22message\x22: \x22libcurl not available. Please install libcurl to enable HTTP functionality.\x22, \x22url\x22: \x22").data
      ++ req.url ++ ("\x22, \x22method\x22: \x22").data ++ req.method ++ ("\x22 \x7d").data,
    responseCode := 200,
    contentType := ("application/json").data,
    headers := [] }

/-- The script-level response object built by the bridge
(`status` / `data` / `contentType` / `headers` properties). -/
structure JsHttpResponse where
  status : Int
  data : Str
  contentType : Str
  headers : List (Str × Str)
deriving DecidableEq

/-- Model of `std::map::operator[]=`: insert or overwrite one key.  (The sorted
iteration order of `std::map` is not modelled; the claims only read
entries.) -/
def mapPut (m : List (Str × Str)) (k v : Str) : List (Str × Str) :=
  if (m.map Prod.fst).contains k
  then m.map (fun p => if p.1 = k then (k, v) else p)
  else m ++ [(k, v)]

/-- Insert all pairs in order (the caller-supplied header loop). -/
def mapPutAll (m : List (Str × Str)) (kvs : List (Str × Str)) : List (Str × Str) :=
  kvs.foldl (fun acc p => mapPut acc p.1 p.2) m

/-- The GET request built by `js_http_get`: default `Accept` and
`Accept-Language` headers, caller headers overlaid, 15 s timeout. -/
def getRequest (u : Str) (hdrs : List (Str × Str)) : HttpRequest :=
  { url := u, method := ("GET").data, data := [],
    headers := mapPutAll
      [((("Accept").data), (("application/json, text/plain, */*").data)),
       ((("Accept-Language").data), (("zh-CN,zh;q=0.9,en;q=0.8").data))] hdrs,
    timeout := 15000 }

/-- The POST request built by `js_http_post`: additionally a default
`Content-Type: application/json; charset=UTF-8`. -/
def postRequest (u body : Str) (hdrs : List (Str × Str)) : HttpRequest :=
  { url := u, method := ("POST").data, data := body,
    headers := mapPutAll
      [((("Accept").data), (("application/json, text/plain, */*").data)),
       ((("Content-Type").data), (("application/json; charset=UTF-8").data)),
       ((("Accept-Language").data), (("zh-CN,zh;q=0.9,en;q=0.8").data))] hdrs,
    timeout := 15000 }

/-- Model of `js_http_get`: a missing or non-string URL argument raises a
script-level `TypeError` before any network activity (modelled as
`Except.error`); otherwise the request is performed and a response object is
returned — for every transport outcome `t`, including failures. -/
def js_http_get (urlArg : Option Str) (hdrs : List (Str × Str))
    (t : TransportOutcome) : Except Str JsHttpResponse :=
  match urlArg with
  | none => Except.error (("TypeError: URL must be a string").data)
  | some u =>
    Except.ok { status := (performHttpRequest (getRequest u hdrs) t).responseCode,
                data := (performHttpRequest (getRequest u hdrs) t).data,
                contentType := (performHttpRequest (getRequest u hdrs) t).contentType,
                headers := (performHttpRequest (getRequest u hdrs) t).headers }

/-- Model of `js_http_post`: missing or non-string URL or body raise a script-level
`TypeError`; otherwise as `js_http_get` with the POST request. -/
def js_http_post (urlArg bodyArg : Option Str) (hdrs : List (Str × Str))
    (t : TransportOutcome) : Except Str JsHttpResponse :=
  match urlArg, bodyArg with
  | some u, some b =>
    Except.ok { status := (performHttpRequest (postRequest u b hdrs) t).responseCode,
                data := (performHttpRequest (postRequest u b hdrs) t).data,
                contentType := (performHttpRequest (postRequest u b hdrs) t).contentType,
                headers := (performHttpRequest (postRequest u b hdrs) t).headers }
  | _, _ => Except.error (("TypeError: URL and data must be strings").data)

/-- Model of `js_http_get_async`: the source function body is a single delegation to
`js_http_get` ("暂时返回同步结果" — returns the synchronous result). -/
def js_http_get_async (urlArg : Option Str) (hdrs : List (Str × Str))
    (t : TransportOutcome) : Except Str JsHttpResponse :=
  js_http_get urlArg hdrs t

/-- Model of `js_http_post_async`: a single delegation to `js_http_post`. -/
def js_http_post_async (urlArg bodyArg : Option Str) (hdrs : List (Str × Str))
    (t : TransportOutcome) : Except Str JsHttpResponse :=
  js_http_post urlArg bodyArg hdrs t

/-- A sample request for concrete evaluation. -/
def exampleRequest : HttpRequest :=
  { url := ("http://example.com").data, method := ("GET").data, data := [],
    headers := [], timeout := 15000 }

/-- The global context registry: `g_next_context_id` and `g_contexts`.
Only wrappers whose sandbox initialisation fully succeeded are stored; the
Bool records the wrapper's `isValid` flag. -/
structure Registry where
  nextId : Nat
  ctxs : List (Nat × Bool)
deriving DecidableEq

/-- Model of `g_contexts.find(id)`: the validity flag of the registered context. -/
def lookupCtx (r : Registry) (id : Nat) : Option Bool := r.ctxs.lookup id

/-- Process start state: `g_next_context_id = 1`, empty map. -/
def initialRegistry : Registry := { nextId := 1, ctxs := [] }

/-- Model of `createJSContext`: `ok` abstracts whether the QuickJS runtime, context
and bindings were all set up (`wrapper->isValid`).  On failure the function
returns 0 and the registry is untouched (the counter does not advance); on
success the context is stored under the current counter value, which is
post-incremented. -/
def createJSContext (ok : Bool) (r : Registry) : Nat × Registry :=
  if ok then (r.nextId, { nextId := r.nextId + 1, ctxs := r.ctxs ++ [(r.nextId, true)] })
  else (0, r)

/-- Model of `destroyJSContext`: erase the entry when present; an unknown id is a
logged no-op. -/
def destroyJSContext (id : Nat) (r : Registry) : Registry :=
  { nextId := r.nextId, ctxs := r.ctxs.eraseP (fun p => p.1 == id) }

/-- Registry invariant: the counter started at 1 and every stored id was
assigned from an earlier counter value. -/
def RegInv (r : Registry) : Prop :=
  1 ≤ r.nextId ∧ ∀ p ∈ r.ctxs, p.1 < r.nextId

/-- Outcome of `JS_Eval` / `JS_Call` inside the sandbox: an exception whose
text `JS_ToCString` renders as the payload (`none` when even that fails), or
a completed evaluation whose result renders as the payload (`none` for
`undefined` or a failed string conversion, both returned as the empty
string). -/
inductive EvalOutcome where
  | exn : Option Str → EvalOutcome
  | value : Option Str → EvalOutcome
deriving DecidableEq

/-- Model of `nativeEvaluateScript`: unknown id, invalidated context and script
exceptions all yield `ERROR:`-prefixed strings; otherwise the rendered
result.  Total — every path returns a string. -/
def nativeEvaluateScript (r : Registry) (id : Nat) (outcome : EvalOutcome) : Str :=
  match lookupCtx r id with
  | none => ("ERROR: Context not found").data
  | some valid =>
    if !valid then ("ERROR: Context is invalid").data
    else
      match outcome with
      | EvalOutcome.exn (some m) => ("ERROR: ").data ++ m
      | EvalOutcome.exn none => ("ERROR: Unknown JavaScript error").data
      | EvalOutcome.value (some v) => v
      | EvalOutcome.value none => []

/-- Model of `nativeCallFunction`: checks, in source order, context presence,
validity, function existence (`JS_IsUndefined`), JSON argument parsing, and
finally the call outcome. -/
def nativeCallFunction (r : Registry) (id : Nat) (fname : Str)
    (fexists jsonOk : Bool) (outcome : EvalOutcome) : Str :=
  match lookupCtx r id with
  | none => ("ERROR: Context not found").data
  | some valid =>
    if !valid then ("ERROR: Context is invalid").data
    else if !fexists then ("ERROR: Function not found: ").data ++ fname
    else if !jsonOk then ("ERROR: Invalid JSON arguments").data
    else
      match outcome with
      | EvalOutcome.exn (some m) => ("ERROR: ").data ++ m
      | EvalOutcome.exn none => ("ERROR: Unknown function call error").data
      | EvalOutcome.value (some v) => v
      | EvalOutcome.value none => []

end QJS

namespace Spider

theorem schemeTail_some {r sch r2 : Str} (h : schemeTail r = some (sch, r2)) :
    sch = ("https://").data ∨ sch = ("http://").data := by
  unfold schemeTail at h
  split at h
  · simp only [Option.some.injEq, Prod.mk.injEq] at h
    exact Or.inl h.1.symm
  · split at h
    · simp only [Option.some.injEq, Prod.mk.injEq] at h
      exact Or.inr h.1.symm
    · exact absurd h (by simp)

theorem isAbsUrl_append (p c : Str) (h : isAbsUrl p = true) :
    isAbsUrl (p ++ c) = true := by
  unfold isAbsUrl at h ⊢
  rw [Bool.or_eq_true] at h ⊢
  rcases h with h | h
  · exact Or.inl (List.isPrefixOf_iff_prefix.mpr
      ((List.isPrefixOf_iff_prefix.mp h).trans (List.prefix_append p c)))
  · exact Or.inr (List.isPrefixOf_iff_prefix.mpr
      ((List.isPrefixOf_iff_prefix.mp h).trans (List.prefix_append p c)))

theorem matchBareUrl_isAbs {ext s cap rest : Str}
    (h : matchBareUrl ext s = some (cap, rest)) : isAbsUrl cap = true := by
  unfold matchBareUrl at h
  split at h
  · exact absurd h (by simp)
  · split at h
    · exact absurd h (by simp)
    · rename_i sch r2 heq
      dsimp only at h
      split at h
      · simp only [Option.some.injEq, Prod.mk.injEq] at h
        rw [← h.1]
        rcases schemeTail_some heq with h1 | h1 <;> rw [h1]
        · exact isAbsUrl_append _ _ (by decide)
        · exact isAbsUrl_append _ _ (by decide)
      · exact absurd h (by simp)

theorem matchDomain_isAbs {s cap rest : Str}
    (h : matchDomain s = some (cap, rest)) : isAbsUrl cap = true := by
  unfold matchDomain at h
  split at h
  · exact absurd h (by simp)
  · split at h
    · exact absurd h (by simp)
    · rename_i sch r2 heq
      dsimp only at h
      split at h
      · exact absurd h (by simp)
      · simp only [Option.some.injEq, Prod.mk.injEq] at h
        rw [← h.1]
        rcases schemeTail_some heq with h1 | h1 <;> rw [h1]
        · exact isAbsUrl_append _ _ (by decide)
        · exact isAbsUrl_append _ _ (by decide)

theorem searchFirst_prop {m : Str → Option (Str × Str)} {P : Str → Prop}
    (hm : ∀ inp cap rest, m inp = some (cap, rest) → P cap) :
    ∀ (f : Nat) (s e : Str), searchFirst m f s = some e → P e := by
  intro f
  induction f with
  | zero => intro s e he; exact absurd he (by simp [searchFirst])
  | succ f ih =>
    intro s e he
    cases s with
    | nil => exact absurd he (by simp [searchFirst])
    | cons c cs =>
      rw [searchFirst] at he
      cases hmc : m (c :: cs) with
      | none => rw [hmc] at he; exact ih cs e he
      | some pr =>
        rw [hmc] at he
        simp only [Option.some.injEq] at he
        exact he ▸ hm (c :: cs) pr.1 pr.2 (by rw [hmc])

theorem domainOf_isAbs {base d : Str} (h : domainOf base = some d) :
    isAbsUrl d = true :=
  searchFirst_prop (fun _ _ _ hm => matchDomain_isAbs hm) _ _ d h

theorem tls_cons_of_some {xs p : Str} (h : takeThruLastSlash xs = some p)
    (c : Char) : takeThruLastSlash (c :: xs) = some (c :: p) := by
  unfold takeThruLastSlash
  rw [h]

theorem tls_append {xs p : Str} (h : takeThruLastSlash xs = some p) :
    ∀ pre : Str, takeThruLastSlash (pre ++ xs) = some (pre ++ p) := by
  intro pre
  induction pre with
  | nil => simpa using h
  | cons c cs ih => simpa using tls_cons_of_some ih c

theorem tls_slash (xs : Str) :
    ∃ q, takeThruLastSlash ('/' :: xs) = some ('/' :: q) := by
  cases h : takeThruLastSlash xs with
  | some p => exact ⟨p, tls_cons_of_some h '/'⟩
  | none =>
    refine ⟨[], ?_⟩
    unfold takeThruLastSlash
    rw [h]
    rfl

theorem tls_isAbs {base : Str} (hb : isAbsUrl base = true) :
    ∃ p, takeThruLastSlash base = some p ∧ isAbsUrl p = true := by
  unfold isAbsUrl at hb
  rw [Bool.or_eq_true] at hb
  rcases hb with hb | hb
  · obtain ⟨t, ht⟩ := List.isPrefixOf_iff_prefix.mp hb
    obtain ⟨q, hq⟩ := tls_slash t
    have h3 := tls_append (tls_cons_of_some hq '/') (("http:").data)
    refine ⟨("http:").data ++ '/' :: '/' :: q, ?_, ?_⟩
    · rw [← ht]; exact h3
    · unfold isAbsUrl
      rw [Bool.or_eq_true]
      exact Or.inl (List.isPrefixOf_iff_prefix.mpr ⟨q, rfl⟩)
  · obtain ⟨t, ht⟩ := List.isPrefixOf_iff_prefix.mp hb
    obtain ⟨q, hq⟩ := tls_slash t
    have h3 := tls_append (tls_cons_of_some hq '/') (("https:").data)
    refine ⟨("https:").data ++ '/' :: '/' :: q, ?_, ?_⟩
    · rw [← ht]; exact h3
    · unfold isAbsUrl
      rw [Bool.or_eq_true]
      exact Or.inr (List.isPrefixOf_iff_prefix.mpr ⟨q, rfl⟩)

theorem makeAbsoluteUrl_abs (c base : Str) (hb : isAbsUrl base = true) :
    isAbsUrl (makeAbsoluteUrl c base) = true ∨
      ((("http").data).isPrefixOf c = true ∧ makeAbsoluteUrl c base = c) := by
  by_cases h1 : (("http").data).isPrefixOf c = true
  · right
    refine ⟨h1, ?_⟩
    unfold makeAbsoluteUrl
    rw [if_pos h1]
  · left
    unfold makeAbsoluteUrl
    rw [if_neg h1]
    by_cases h2 : (("//").data).isPrefixOf c = true
    · rw [if_pos h2]
      obtain ⟨t, ht⟩ := List.isPrefixOf_iff_prefix.mp h2
      rw [← ht]
      unfold isAbsUrl
      rw [Bool.or_eq_true]
      exact Or.inr (List.isPrefixOf_iff_prefix.mpr ⟨t, rfl⟩)
    · rw [if_neg h2]
      by_cases h3 : (("/").data).isPrefixOf c = true
      · rw [if_pos h3]
        cases hd : domainOf base with
        | some d =>
          exact isAbsUrl_append d c (domainOf_isAbs hd)
        | none =>
          obtain ⟨p, hp, hpa⟩ := tls_isAbs hb
          rw [hp]
          exact isAbsUrl_append p c hpa
      · rw [if_neg h3]
        obtain ⟨p, hp, hpa⟩ := tls_isAbs hb
        rw [hp]
        exact isAbsUrl_append p c hpa

theorem scanAll_prop {m : Str → Option (Str × Str)} {P : Str → Prop}
    (hm : ∀ inp cap rest, m inp = some (cap, rest) → P cap) :
    ∀ (f : Nat) (s e : Str), e ∈ scanAll m f s → P e := by
  intro f
  induction f with
  | zero => intro s e he; exact absurd he (by simp [scanAll])
  | succ f ih =>
    intro s e he
    cases s with
    | nil => exact absurd he (by simp [scanAll])
    | cons c cs =>
      rw [scanAll] at he
      cases hmc : m (c :: cs) with
      | none => rw [hmc] at he; exact ih cs e he
      | some pr =>
        rw [hmc] at he
        rcases List.mem_cons.mp he with he | he
        · exact he ▸ hm (c :: cs) pr.1 pr.2 (by rw [hmc])
        · exact ih pr.2 e he

theorem dedupAppend_nodup : ∀ (l acc : List Str), acc.Nodup → (dedupAppend acc l).Nodup := by
  intro l
  induction l with
  | nil => intro acc h; exact h
  | cons u us ih =>
    intro acc h
    by_cases hc : u ∈ acc
    · rw [dedupAppend, if_pos hc]
      exact ih acc h
    · rw [dedupAppend, if_neg hc]
      apply ih
      rw [List.nodup_append]
      refine ⟨h, List.nodup_singleton u, ?_⟩
      intro a ha hmem
      rw [List.mem_singleton] at hmem
      exact hc (hmem ▸ ha)

theorem extractPlayUrls_nodup (html : Str) : (extractPlayUrls html).Nodup :=
  dedupAppend_nodup _ [] List.nodup_nil

theorem parse_always_error_result (url html : Str) :
    (parse url html).error = regexErrorWhat ∧
    (parse url html).title = [] ∧
    (parse url html).title ≠ unknownTitle ∧
    (parse url html).playUrls = [] ∧
    (parse url html).downloadUrls = [] ∧
    (parse url html).metadata = [] := by
  have hdl : extractDownloadUrls url html = Except.error () := rfl
  unfold parse
  rw [hdl]
  exact ⟨rfl, rfl, show ([] : Str) ≠ unknownTitle by decide, rfl, rfl, rfl⟩

theorem firstGoodTitle_default :
    ∀ l : List (Option Str), l.all Option.isNone = true → firstGoodTitle l = unknownTitle := by
  intro l
  induction l with
  | nil => intro _; rfl
  | cons o rest ih =>
    intro h
    rw [List.all_cons, Bool.and_eq_true] at h
    cases o with
    | none => exact ih h.2
    | some v => exact absurd h.1 (by simp)

theorem firstThumb_default (baseUrl : Str) :
    ∀ l : List (Option Str), l.all Option.isNone = true → firstThumb baseUrl l = [] := by
  intro l
  induction l with
  | nil => intro _; rfl
  | cons o rest ih =>
    intro h
    rw [List.all_cons, Bool.and_eq_true] at h
    cases o with
    | none => exact ih h.2
    | some v => exact absurd h.1 (by simp)

theorem metaFold_default (html : Str) :
    ∀ (ks : List Str) (acc : List (Str × Str)),
      (∀ k ∈ ks, (searchFirst (matchMetaKey k) (html.length + 1) html).isNone = true) →
      ks.foldl (fun acc key =>
        match searchFirst (matchMetaKey key) (html.length + 1) html with
        | some v => acc ++ [(key, v)]
        | none => acc) acc = acc := by
  intro ks
  induction ks with
  | nil => intro acc _; rfl
  | cons k rest ih =>
    intro acc h
    have hk := h k (List.mem_cons_self k rest)
    rw [List.foldl_cons]
    cases hs : searchFirst (matchMetaKey k) (html.length + 1) html with
    | some v => rw [hs] at hk; exact absurd hk (by simp)
    | none =>
      exact ih acc (fun k2 hk2 => h k2 (List.mem_cons_of_mem k hk2))

theorem parseRepaired_graceful (url html : Str) (h : recognizesNothing html = true) :
    parseRepaired url html =
      { url := url, title := unknownTitle, content := html, thumbnail := [],
        metadata := [], playUrls := [], downloadUrls := [], error := [] } := by
  unfold recognizesNothing at h
  simp only [Bool.and_eq_true] at h
  obtain ⟨⟨⟨⟨⟨⟨⟨h1, h2⟩, h3⟩, h4⟩, h5⟩, h6⟩, h7⟩, h8⟩ := h
  unfold parseRepaired
  simp only [SpiderResult.mk.injEq]
  refine ⟨trivial, ?_, trivial, ?_, ?_, ?_, ?_, trivial⟩
  · exact firstGoodTitle_default _ h1
  · exact firstThumb_default _ _ h2
  · exact metaFold_default html metaKeys [] (by
      intro k hk
      exact List.all_eq_true.mp h3 k hk)
  · exact List.isEmpty_iff.mp h4
  · unfold extractDownloadUrlsLoop
    rw [List.isEmpty_iff.mp h5, List.isEmpty_iff.mp h6, List.isEmpty_iff.mp h7,
      List.isEmpty_iff.mp h8]
    rfl

theorem parse_demo_scenario :
    extractTitle demoHtml = ("Demo").data ∧
    extractPlayUrls demoHtml = [(("https://cdn.test/v.m3u8").data)] ∧
    (parse (("https://example.com/page").data) demoHtml).title = [] ∧
    (parse (("https://example.com/page").data) demoHtml).playUrls = [] ∧
    (parse (("https://example.com/page").data) demoHtml).error = regexErrorWhat := by
  refine ⟨by decide, by decide, ?_, ?_, ?_⟩ <;>
    · have hdl : extractDownloadUrls (("https://example.com/page").data) demoHtml
          = Except.error () := rfl
      unfold parse
      rw [hdl]

theorem playUrl_not_absolute_counterexample :
    nativeExtractPlayUrls (("x").data) (("src=\x22a.m3u8\x22").data)
      = [(("a.m3u8").data)] ∧
    isAbsUrl (("a.m3u8").data) = false := by
  refine ⟨by decide, by decide⟩

theorem playUrl_absoluteness_amended :
    (∀ ext html e, e ∈ scanBareUrls ext html → isAbsUrl e = true) ∧
    (∀ c base, isAbsUrl base = true →
      isAbsUrl (makeAbsoluteUrl c base) = true ∨
        ((("http").data).isPrefixOf c = true ∧ makeAbsoluteUrl c base = c)) := by
  constructor
  · intro ext html e he
    exact scanAll_prop (fun _ _ _ hm => matchBareUrl_isAbs hm) _ _ e he
  · exact makeAbsoluteUrl_abs

theorem playUrl_absoluteness_amended_witness :
    isAbsUrl (("https://cdn.test/v.m3u8").data) = true ∧
    (isAbsUrl (makeAbsoluteUrl (("a.mp4").data) (("https://x.com/c/").data)) = true ∨
      ((("http").data).isPrefixOf (("a.mp4").data) = true ∧
        makeAbsoluteUrl (("a.mp4").data) (("https://x.com/c/").data) = ("a.mp4").data)) :=
  ⟨playUrl_absoluteness_amended.1 ((".m3u8").data) demoHtml _ (by decide),
   playUrl_absoluteness_amended.2 (("a.mp4").data) (("https://x.com/c/").data) (by decide)⟩

theorem downloadUrls_dedup_violation :
    extractDownloadUrls (("https://x.com/c/").data) (("href=\x22a.mp4\x22 href=\x22a.mp4\x22").data)
      = Except.error () ∧
    extractDownloadUrlsLoop (("https://x.com/c/").data) (("href=\x22a.mp4\x22 href=\x22a.mp4\x22").data)
      = [(("https://x.com/c/a.mp4").data), (("https://x.com/c/a.mp4").data)] ∧
    ¬ (extractDownloadUrlsLoop (("https://x.com/c/").data)
        (("href=\x22a.mp4\x22 href=\x22a.mp4\x22").data)).Nodup := by
  refine ⟨rfl, by decide, by decide⟩

theorem strfindAux_le {p : Str} :
    ∀ {s : Str} {i j : Nat}, strfindAux p s i = some j → i ≤ j := by
  intro s
  induction s with
  | nil =>
    intro i j h
    unfold strfindAux at h
    split at h
    · simp only [Option.some.injEq] at h
      omega
    · exact absurd h (by simp)
  | cons c t ih =>
    intro i j h
    unfold strfindAux at h
    split at h
    · simp only [Option.some.injEq] at h
      omega
    · exact Nat.le_trans (Nat.le_succ i) (ih h)

theorem strfind_zero_iff (s p : Str) : strfind s p = some 0 ↔ p.isPrefixOf s = true := by
  unfold strfind
  cases s with
  | nil =>
    unfold strfindAux
    split
    · simp_all
    · simp_all
  | cons c t =>
    unfold strfindAux
    split
    · simp_all
    · constructor
      · intro h
        have := strfindAux_le h
        omega
      · intro h
        simp_all

theorem strfindAux_isSome (p : Str) :
    ∀ (s : Str) (i : Nat), (strfindAux p s i).isSome = isSub p s := by
  intro s
  induction s with
  | nil =>
    intro i
    unfold strfindAux isSub
    cases hp : List.isPrefixOf p ([] : Str) <;> simp [hp]
  | cons c t ih =>
    intro i
    unfold strfindAux isSub
    split
    · simp_all
    · rw [ih (i + 1)]
      simp_all

theorem isSub_iff_infix (p s : Str) : isSub p s = true ↔ p <:+: s := by
  induction s with
  | nil =>
    simp only [isSub]
    rw [List.isPrefixOf_iff_prefix]
    constructor
    · exact fun h => h.isInfix
    · intro h
      have hp : p = [] := List.eq_nil_of_infix_nil h
      subst hp
      exact List.prefix_refl []
  | cons c t ih =>
    simp only [isSub]
    rw [Bool.or_eq_true, List.isPrefixOf_iff_prefix, ih, List.infix_cons_iff]

theorem strfind_isSome_iff (s p : Str) : (strfind s p).isSome = true ↔ p <:+: s := by
  unfold strfind
  rw [strfindAux_isSome]
  exact isSub_iff_infix p s

theorem validatePlayUrl_iff (s : Str) :
    nativeValidatePlayUrl s = true ↔
      ((("http").data <+: s) ∧
        ((".m3u8").data <:+: s ∨ (".mp4").data <:+: s ∨ (".flv").data <:+: s ∨
         (".avi").data <:+: s ∨ (".mkv").data <:+: s)) := by
  unfold nativeValidatePlayUrl
  simp only [Bool.and_eq_true, Bool.or_eq_true, beq_iff_eq, strfind_isSome_iff]
  rw [strfind_zero_iff, List.isPrefixOf_iff_prefix]
  tauto

/-- Claim C8: the four concrete resolution equations of the spec hold for
`makeAbsoluteUrl`: root-relative, path-relative, protocol-relative (for every
base) and already-absolute (for every base, unchanged). -/
theorem makeAbsoluteUrl_resolution_equations :
    makeAbsoluteUrl (("/a/b.mp4").data) (("https://x.com/c/d").data)
      = (("https://x.com/a/b.mp4").data) ∧
    makeAbsoluteUrl (("e.mp4").data) (("https://x.com/c/d/").data)
      = (("https://x.com/c/d/e.mp4").data) ∧
    (∀ base : Str, makeAbsoluteUrl (("//cdn.com/f.mp4").data) base
      = (("https://cdn.com/f.mp4").data)) ∧
    (∀ base : Str, makeAbsoluteUrl (("https://y.com/g.mp4").data) base
      = (("https://y.com/g.mp4").data)) := by
  refine ⟨by decide, by decide, fun base => rfl, fun base => rfl⟩

end Spider

namespace QJS

/-- Claim C5: for every registry state and outcome, an unknown context id,
an invalidated context, a script exception (for `evaluate`), and additionally
a missing function or unparseable JSON arguments (for `callFunction`) all
yield a string beginning with the literal `ERROR:`; the boundary functions
are total, so a string is returned in every case and no native exception
reaches the host. -/
theorem boundary_error_prefixed :
    (∀ (r : Registry) (id : Nat) (o : EvalOutcome),
      (lookupCtx r id = none ∨ lookupCtx r id = some false ∨ ∃ m, o = EvalOutcome.exn m) →
      ("ERROR:").data <+: nativeEvaluateScript r id o) ∧
    (∀ (r : Registry) (id : Nat) (fname : Str) (fexists jsonOk : Bool) (o : EvalOutcome),
      (lookupCtx r id = none ∨ lookupCtx r id = some false ∨ fexists = false ∨
        jsonOk = false ∨ ∃ m, o = EvalOutcome.exn m) →
      ("ERROR:").data <+: nativeCallFunction r id fname fexists jsonOk o) := by
  constructor
  · intro r id o h
    unfold nativeEvaluateScript
    cases hl : lookupCtx r id with
    | none =>
      exact (show ("ERROR:").data <+: ("ERROR: Context not found").data by decide)
    | some valid =>
      cases valid with
      | false =>
        exact (show ("ERROR:").data <+: ("ERROR: Context is invalid").data by decide)
      | true =>
        rcases h with h | h | ⟨m, hm⟩
        · rw [hl] at h; exact absurd h (by simp)
        · rw [hl] at h; simp at h
        · subst hm
          cases m with
          | some msg => exact ⟨' ' :: msg, rfl⟩
          | none =>
            exact (show ("ERROR:").data <+: ("ERROR: Unknown JavaScript error").data by decide)
  · intro r id fname fexists jsonOk o h
    unfold nativeCallFunction
    cases hl : lookupCtx r id with
    | none =>
      exact (show ("ERROR:").data <+: ("ERROR: Context not found").data by decide)
    | some valid =>
      cases valid with
      | false =>
        exact (show ("ERROR:").data <+: ("ERROR: Context is invalid").data by decide)
      | true =>
        cases fexists with
        | false => exact ⟨(" Function not found: ").data ++ fname, rfl⟩
        | true =>
          cases jsonOk with
          | false =>
            exact (show ("ERROR:").data <+: ("ERROR: Invalid JSON arguments").data by decide)
          | true =>
            rcases h with h | h | h | h | ⟨m, hm⟩
            · rw [hl] at h; exact absurd h (by simp)
            · rw [hl] at h; simp at h
            · simp at h
            · simp at h
            · subst hm
              cases m with
              | some msg => exact ⟨' ' :: msg, rfl⟩
              | none =>
                exact (show ("ERROR:").data <+: ("ERROR: Unknown function call error").data by decide)

/-- Witness for C5 at the empty registry and an unknown id. -/
theorem boundary_error_prefixed_witness :
    ("ERROR:").data <+: nativeEvaluateScript initialRegistry 7 (EvalOutcome.value (some (("1").data))) ∧
    ("ERROR:").data <+: nativeCallFunction initialRegistry 7 (("f").data) true true (EvalOutcome.value none) :=
  ⟨boundary_error_prefixed.1 initialRegistry 7 _ (Or.inl rfl),
   boundary_error_prefixed.2 initialRegistry 7 (("f").data) true true _ (Or.inl rfl)⟩

/-- Lookup skips entries whose keys differ. -/
theorem lookup_append_right {l1 l2 : List (Nat × Bool)} {k : Nat}
    (h : ∀ p ∈ l1, p.1 ≠ k) : (l1 ++ l2).lookup k = l2.lookup k := by
  induction l1 with
  | nil => rfl
  | cons p t ih =>
    rw [List.cons_append]
    have hk : (k == p.1) = false := by
      have := h p (List.mem_cons_self p t)
      simp [Ne.symm this]
    rw [List.lookup]
    simp only [hk]
    exact ih (fun q hq => h q (List.mem_cons_of_mem p hq))

/-- Erasure skips entries whose keys differ. -/
theorem eraseP_append_right {l1 l2 : List (Nat × Bool)} {k : Nat}
    (h : ∀ p ∈ l1, p.1 ≠ k) :
    (l1 ++ l2).eraseP (fun p => p.1 == k) = l1 ++ l2.eraseP (fun p => p.1 == k) := by
  induction l1 with
  | nil => rfl
  | cons p t ih =>
    rw [List.cons_append, List.eraseP_cons]
    have hk : (p.1 == k) = false := by
      have := h p (List.mem_cons_self p t)
      simp [this]
    simp only [hk]
    rw [List.cons_append]
    rw [ih (fun q hq => h q (List.mem_cons_of_mem p hq))]
    rfl

/-- Claim C6: from any well-formed registry state, a failed creation
reports identity 0 and leaves the registry unchanged; two successful
creations yield nonzero, strictly increasing identities, the first of which
was never in use before (never reused); both contexts are registered valid,
and destroying the first removes exactly its entry, leaving the second
present and valid. -/
theorem context_identity_lifecycle (r : Registry) (hr : RegInv r) :
    (createJSContext false r).1 = 0 ∧
    (createJSContext false r).2 = r ∧
    0 < (createJSContext true r).1 ∧
    (createJSContext true r).1 < (createJSContext true (createJSContext true r).2).1 ∧
    (∀ p ∈ r.ctxs, p.1 ≠ (createJSContext true r).1) ∧
    lookupCtx (createJSContext true (createJSContext true r).2).2
      (createJSContext true r).1 = some true ∧
    lookupCtx (createJSContext true (createJSContext true r).2).2
      (createJSContext true (createJSContext true r).2).1 = some true ∧
    lookupCtx (destroyJSContext (createJSContext true r).1
        (createJSContext true (createJSContext true r).2).2)
      (createJSContext true r).1 = none ∧
    lookupCtx (destroyJSContext (createJSContext true r).1
        (createJSContext true (createJSContext true r).2).2)
      (createJSContext true (createJSContext true r).2).1 = some true := by
  obtain ⟨h1, h2⟩ := hr
  have hfresh : ∀ p ∈ r.ctxs, p.1 ≠ r.nextId := fun p hp => Nat.ne_of_lt (h2 p hp)
  have hfresh2 : ∀ p ∈ r.ctxs, p.1 ≠ r.nextId + 1 :=
    fun p hp => Nat.ne_of_lt (Nat.lt_succ_of_lt (h2 p hp))
  refine ⟨rfl, rfl, h1, Nat.lt_succ_self _, hfresh, ?_, ?_, ?_, ?_⟩
  · show ((r.ctxs ++ [(r.nextId, true)]) ++ [(r.nextId + 1, true)]).lookup r.nextId = some true
    rw [List.append_assoc, lookup_append_right hfresh]
    simp [List.lookup]
  · show ((r.ctxs ++ [(r.nextId, true)]) ++ [(r.nextId + 1, true)]).lookup (r.nextId + 1) = some true
    rw [List.append_assoc, lookup_append_right hfresh2]
    have : (r.nextId + 1 == r.nextId) = false := by simp
    simp [List.lookup, this]
  · show (((r.ctxs ++ [(r.nextId, true)]) ++ [(r.nextId + 1, true)]).eraseP
      (fun p => p.1 == r.nextId)).lookup r.nextId = none
    rw [List.append_assoc, eraseP_append_right hfresh]
    rw [lookup_append_right hfresh]
    have he : (([((r.nextId : Nat), true)] ++ [(r.nextId + 1, true)]).eraseP
        (fun p => p.1 == r.nextId)) = [(r.nextId + 1, true)] := by
      rw [List.singleton_append, List.eraseP_cons]
      simp
    rw [he]
    have : (r.nextId == r.nextId + 1) = false := by simp
    simp [List.lookup, this]
  · show (((r.ctxs ++ [(r.nextId, true)]) ++ [(r.nextId + 1, true)]).eraseP
      (fun p => p.1 == r.nextId)).lookup (r.nextId + 1) = some true
    rw [List.append_assoc, eraseP_append_right hfresh]
    rw [lookup_append_right hfresh2]
    have he : (([((r.nextId : Nat), true)] ++ [(r.nextId + 1, true)]).eraseP
        (fun p => p.1 == r.nextId)) = [(r.nextId + 1, true)] := by
      rw [List.singleton_append, List.eraseP_cons]
      simp
    rw [he]
    simp [List.lookup]

/-- Witness for C6 at the process-start registry. -/
theorem context_identity_lifecycle_witness :
    (createJSContext false initialRegistry).1 = 0 ∧
    lookupCtx (destroyJSContext (createJSContext true initialRegistry).1
        (createJSContext true (createJSContext true initialRegistry).2).2)
      (createJSContext true (createJSContext true initialRegistry).2).1 = some true :=
  ⟨(context_identity_lifecycle initialRegistry
      ⟨Nat.le_refl 1, fun p hp => absurd hp (List.not_mem_nil p)⟩).1,
   (context_identity_lifecycle initialRegistry
      ⟨Nat.le_refl 1, fun p hp => absurd hp (List.not_mem_nil p)⟩).2.2.2.2.2.2.2.2⟩

/-- Claim C7, amended to the libcurl build: every transport-level failure
(CURL init failure or a failed perform) is surfaced in the returned response
value as `status ≤ 0` together with an `ERROR:`-prefixed message in `data`,
and the bridge returns a response object — never a script-level exception —
for every transport outcome whenever the URL argument is a string.  (In the
no-libcurl stub build the claim fails: see `stub_reports_success`.) -/
theorem transport_failure_surfaced :
    (∀ (req : HttpRequest) (t : TransportOutcome),
      (t = TransportOutcome.initFail ∨ ∃ m, t = TransportOutcome.failed m) →
      (performHttpRequest req t).responseCode ≤ 0 ∧
      ("ERROR:").data <+: (performHttpRequest req t).data) ∧
    (∀ (u : Str) (hdrs : List (Str × Str)) (t : TransportOutcome),
      ∃ resp, js_http_get (some u) hdrs t = Except.ok resp ∧
        resp.status = (performHttpRequest (getRequest u hdrs) t).responseCode) := by
  constructor
  · intro req t h
    rcases h with h | ⟨m, h⟩ <;> subst h
    · exact ⟨show (-1 : Int) ≤ 0 by decide,
        show ("ERROR:").data <+: ("ERROR: Failed to initialize CURL").data by decide⟩
    · exact ⟨show (-1 : Int) ≤ 0 by decide, ⟨' ' :: m, rfl⟩⟩
  · intro u hdrs t
    exact ⟨_, rfl, rfl⟩

/-- Witness for C7 (amended) at a concrete timed-out GET. -/
theorem transport_failure_surfaced_witness :
    ((performHttpRequest exampleRequest (TransportOutcome.failed (("Timeout was reached").data))).responseCode ≤ 0 ∧
      ("ERROR:").data <+: (performHttpRequest exampleRequest
        (TransportOutcome.failed (("Timeout was reached").data))).data) ∧
    (∃ resp, js_http_get (some (("http://example.com").data)) []
        (TransportOutcome.failed (("Timeout was reached").data)) = Except.ok resp ∧
      resp.status = (performHttpRequest
        (getRequest (("http://example.com").data) [])
        (TransportOutcome.failed (("Timeout was reached").data))).responseCode) :=
  ⟨transport_failure_surfaced.1 exampleRequest _ (Or.inr ⟨_, rfl⟩),
   transport_failure_surfaced.2 (("http://example.com").data) [] _⟩

/-- Claim C7 counterexample: in the no-libcurl build every request —
including one for which no transport exists at all — reports protocol status
200 with an error payload in `data`, so the failure is not surfaced as
`status ≤ 0` and status alone cannot distinguish it from success. -/
theorem stub_reports_success :
    (performHttpRequestStub exampleRequest).responseCode = 200 ∧
    ¬ ((performHttpRequestStub exampleRequest).responseCode ≤ 0) :=
  ⟨rfl, by decide⟩

/-- Claim C9: `httpGetAsync` and `httpPostAsync` are literal delegations to
`httpGet` and `httpPost` in the source, hence extensionally equal on every
argument list, context state and transport outcome — same values, same
script-level errors, same synchronous execution. -/
theorem async_variants_equal :
    (∀ (u : Option Str) (hdrs : List (Str × Str)) (t : TransportOutcome),
      js_http_get_async u hdrs t = js_http_get u hdrs t) ∧
    (∀ (u b : Option Str) (hdrs : List (Str × Str)) (t : TransportOutcome),
      js_http_post_async u b hdrs t = js_http_post u b hdrs t) :=
  ⟨fun u hdrs t => rfl, fun u b hdrs t => rfl⟩

end QJS

end OneTV
